import Mathlib

/-!
Verification of the tick-based SWMR writer/reader surface of this HDF5 tree.

Shallow embedding of the two source files:
  * test/vfd_swmr_bigset_writer.c  — the big-dataset SWMR writer test program
    (matrix initialization, extensible-dataset chunk writes, command-line
    configuration, the main loop and close handshake);
  * src/H5G.c — the public group API argument handling (H5Gcreate2, H5Gopen2,
    H5Gget_info, H5Grefresh).

Machine integers are modelled as Nat with explicit reduction modulo 2^w at
the points where the C code performs w-bit arithmetic (hsize_t and unsigned
long are 64-bit, unsigned int is 32-bit, uint32_t is 32-bit).
-/

namespace Bigset

/-- number of rows of one chunk, ROWS in vfd_swmr_bigset_writer.c -/
def ROWS : Nat := 256

/-- number of columns of one chunk, COLS in vfd_swmr_bigset_writer.c -/
def COLS : Nat := 512

/-- number of datasets the writer creates, NSETS in vfd_swmr_bigset_writer.c -/
def NSETS : Nat := 5

/-- modulus of 64-bit unsigned arithmetic (hsize_t, unsigned long) -/
def U64 : Nat := 2 ^ 64

/-- UINT32_MAX -/
def U32MAX : Nat := 2 ^ 32 - 1

/-- UINT_MAX (unsigned int is 32-bit on the test platforms) -/
def UINT_MAX : Nat := 2 ^ 32 - 1

/-- ULONG_MAX (unsigned long is 64-bit) -/
def ULONG_MAX : Nat := 2 ^ 64 - 1

/-- H5S_UNLIMITED is (hsize_t)(-1), the all-ones 64-bit value -/
def H5S_UNLIMITED : Nat := 2 ^ 64 - 1

/-- base_t from vfd_swmr_bigset_writer.c: a chunk base offset (row, col),
both hsize_t -/
structure base_t where
  row : Nat
  col : Nat
deriving Repr, DecidableEq

/-- 64-bit unsigned subtraction a - b as C computes it on hsize_t values -/
def u64sub (a b : Nat) : Nat := (a % U64 + (U64 - b % U64)) % U64

/-- 64-bit unsigned multiplication a * b as C computes it on hsize_t values -/
def u64mul (a b : Nat) : Nat := a % U64 * (b % U64) % U64

/-- 64-bit unsigned addition a + b as C computes it on hsize_t values -/
def u64add (a b : Nat) : Nat := (a % U64 + b % U64) % U64

/-- value u computed inside the loop body of init_matrix for in-chunk
position (row, col): with i = base.row + row and j = base.col + col in
hsize_t arithmetic, u = (i + 1) * (i + 1) - 1 - j when j <= i, otherwise
u = j * j + i -/
def init_u (base : base_t) (row col : Nat) : Nat :=
  let i := (base.row + row) % U64
  let j := (base.col + col) % U64
  if j ≤ i then u64sub (u64sub (u64mul (i + 1) (i + 1)) 1) j
  else u64add (u64mul j j) i

/-- condition of the assertion assert(UINT32_MAX - u >= which) in
init_matrix; the subtraction is 64-bit unsigned -/
def init_assert_ok (which : Nat) (base : base_t) (row col : Nat) : Prop :=
  which ≤ u64sub U32MAX (init_u base row col)

/-- element stored by init_matrix at in-chunk position (row, col):
mat[row][col] = (uint32_t)(u + which), the sum formed in 64-bit arithmetic
and then truncated to 32 bits by the cast -/
def init_matrix (which : Nat) (base : base_t) (row col : Nat) : Nat :=
  (init_u base row col + which) % U64 % 2 ^ 32

/-- the spec formula for the matrix value at global coordinates (i, j) in
exact (unbounded) arithmetic: (i+1)^2 - 1 - j when j <= i, else j^2 + i -/
def val_exact (i j : Nat) : Nat :=
  if j ≤ i then (i + 1) * (i + 1) - 1 - j else j * j + i

/-- write_extensible_dset from vfd_swmr_bigset_writer.c, modelled by the
extent it sets and the ordered list of chunk base offsets it writes.
size[0] = original_dims[0] * (1 + step) where (1 + step) is unsigned int
arithmetic (mod 2^32); in two-dee mode size[1] grows the same way and the
chunk loops walk base.row = 0, 256, ..., last.row (inclusive) at
base.col = last.col, then base.col = 0, 512, ..., < last.col (exclusive)
at base.row = last.row; in one-dee mode only the chunk at (last.row, 0) is
written -/
def write_extensible_dset (two_dee : Bool) (step : Nat) : (Nat × Nat) × List base_t :=
  let grown := (1 + step) % 2 ^ 32
  if two_dee then
    ((ROWS * grown, COLS * grown),
      (List.range (step + 1)).map (fun i => ⟨ROWS * i, COLS * step⟩) ++
      (List.range step).map (fun j => ⟨ROWS * step, COLS * j⟩))
  else ((ROWS * grown, COLS), [⟨ROWS * step, 0⟩])

theorem u64sub_eq (a b : Nat) (h1 : b ≤ a) (h2 : a < U64) : u64sub a b = a - b := by
  unfold u64sub U64 at *
  omega

theorem u64add_eq (a b : Nat) (h : a + b < U64) : u64add a b = a + b := by
  unfold u64add U64 at *
  omega

theorem u64mul_eq (a b : Nat) (ha : a < U64) (hb : b < U64) (hab : a * b < U64) :
    u64mul a b = a * b := by
  unfold u64mul
  rw [Nat.mod_eq_of_lt ha, Nat.mod_eq_of_lt hb, Nat.mod_eq_of_lt hab]

/-- when both global coordinates stay below 2^16 the 64-bit computation in
init_matrix agrees with the exact formula -/
theorem init_u_exact (base : base_t) (row col : Nat)
    (hi : base.row + row ≤ 65535) (hj : base.col + col ≤ 65535) :
    init_u base row col = val_exact (base.row + row) (base.col + col) := by
  have hU : (65536 : Nat) < U64 := by unfold U64; omega
  have h1 : (base.row + row) % U64 = base.row + row := Nat.mod_eq_of_lt (by omega)
  have h2 : (base.col + col) % U64 = base.col + col := Nat.mod_eq_of_lt (by omega)
  unfold init_u val_exact
  simp only [h1, h2]
  by_cases hle : base.col + col ≤ base.row + row
  · rw [if_pos hle, if_pos hle]
    have hsq : (base.row + row + 1) * (base.row + row + 1) ≤ 65536 * 65536 :=
      Nat.mul_le_mul (by omega) (by omega)
    have hge : 1 * (base.row + row + 1) ≤ (base.row + row + 1) * (base.row + row + 1) :=
      Nat.mul_le_mul (by omega) (Nat.le_refl _)
    rw [u64mul_eq _ _ (by unfold U64; omega) (by unfold U64; omega)
      (by unfold U64; omega)]
    rw [u64sub_eq ((base.row + row + 1) * (base.row + row + 1)) 1
      (by omega) (by unfold U64; omega)]
    rw [u64sub_eq _ (base.col + col) (by omega) (by unfold U64; omega)]
  · rw [if_neg hle, if_neg hle]
    have hsq : (base.col + col) * (base.col + col) ≤ 65535 * 65535 :=
      Nat.mul_le_mul (by omega) (by omega)
    rw [u64mul_eq _ _ (by unfold U64; omega) (by unfold U64; omega)
      (by unfold U64; omega)]
    rw [u64add_eq _ _ (by unfold U64; omega)]

/-- when the exact value fits below 2^32 both global coordinates are below
2^16 -/
theorem val_exact_coord_bound (i j : Nat) (h : val_exact i j ≤ 2 ^ 32 - 1) :
    i ≤ 65535 ∧ j ≤ 65535 := by
  unfold val_exact at h
  by_cases hle : j ≤ i
  · rw [if_pos hle] at h
    have hexp : (i + 1) * (i + 1) = i * i + 2 * i + 1 := by ring
    have hi2 : i ≤ 65535 := by
      by_contra hc
      have hbig : 65536 * 65536 ≤ i * i := Nat.mul_le_mul (by omega) (by omega)
      omega
    exact ⟨hi2, by omega⟩
  · rw [if_neg hle] at h
    have hj : j ≤ 65535 := by
      by_contra hc
      have hbig : 65536 * 65536 ≤ j * j := Nat.mul_le_mul (by omega) (by omega)
      omega
    exact ⟨by omega, hj⟩

/-- C1 (corrected): the claim as stated fails because init_matrix stores its
value through a cast to uint32_t; at which = 0, base = (65536, 0),
row = col = 0 the exact formula gives 65537 * 65537 - 1 = 4295098368, which
exceeds UINT32_MAX, and the stored element is that value reduced modulo
2^32, namely 131072 -/
theorem init_matrix_truncates :
    ¬ (init_matrix 0 ⟨65536, 0⟩ 0 0 = val_exact (65536 + 0) (0 + 0) + 0) := by
  decide

/-- C1 (amended): for every dataset index which, chunk base offset base and
in-chunk position (row, col), provided the global coordinates
i = base.row + row and j = base.col + col do not wrap 64-bit arithmetic and
the exact value plus which is at most UINT32_MAX, the element written by
init_matrix equals (i+1)*(i+1) - 1 - j when j <= i and j*j + i when j > i,
plus the per-dataset offset which -/
theorem init_matrix_value (which : Nat) (base : base_t) (row col : Nat)
    (hfit : val_exact (base.row + row) (base.col + col) + which ≤ U32MAX) :
    init_matrix which base row col =
      val_exact (base.row + row) (base.col + col) + which := by
  have hb : val_exact (base.row + row) (base.col + col) ≤ 2 ^ 32 - 1 := by
    unfold U32MAX at hfit; omega
  obtain ⟨hi, hj⟩ := val_exact_coord_bound _ _ hb
  unfold init_matrix
  rw [init_u_exact base row col hi hj]
  unfold U32MAX at hfit
  unfold U64
  omega

/-- C1 witness: the amended theorem evaluated at which = 3,
base = (2, 7), row = 1, col = 2, so i = 3, j = 9 and the value is
9 * 9 + 3 + 3 = 87 -/
theorem init_matrix_value_witness :
    val_exact (2 + 1) (7 + 2) + 3 ≤ U32MAX ∧ init_matrix 3 ⟨2, 7⟩ 1 2 = 87 := by
  refine ⟨by decide, ?_⟩
  have h := init_matrix_value 3 ⟨2, 7⟩ 1 2 (by decide)
  simpa using h

/-- C9 (confirmed): for every base offset and dataset index which with
which <= 4, if the global coordinates reached at in-chunk position
(row, col) are at most 65534, then the assertion
assert(UINT32_MAX - u >= which) inside init_matrix holds and the value
u + which fits in 32 bits, so the uint32_t cast does not truncate -/
theorem init_matrix_assert_safe (which : Nat) (base : base_t) (row col : Nat)
    (hw : which ≤ 4) (hrow : row < ROWS) (hcol : col < COLS)
    (hi : base.row + row ≤ 65534) (hj : base.col + col ≤ 65534) :
    init_assert_ok which base row col ∧
      init_u base row col + which ≤ U32MAX ∧
      init_matrix which base row col = init_u base row col + which := by
  have hu : init_u base row col = val_exact (base.row + row) (base.col + col) :=
    init_u_exact base row col (by omega) (by omega)
  have hub : val_exact (base.row + row) (base.col + col) ≤ 65535 * 65535 - 1 := by
    unfold val_exact
    by_cases hle : base.col + col ≤ base.row + row
    · rw [if_pos hle]
      have : (base.row + row + 1) * (base.row + row + 1) ≤ 65535 * 65535 :=
        Nat.mul_le_mul (by omega) (by omega)
      omega
    · rw [if_neg hle]
      have : (base.col + col) * (base.col + col) ≤ 65534 * 65534 :=
        Nat.mul_le_mul (by omega) (by omega)
      omega
  refine ⟨?_, ?_, ?_⟩
  · unfold init_assert_ok
    rw [hu, u64sub_eq _ _ (by unfold U32MAX; omega) (by unfold U32MAX U64; omega)]
    unfold U32MAX
    omega
  · rw [hu]; unfold U32MAX; omega
  · unfold init_matrix
    rw [hu]
    unfold U64
    omega

/-- C9 witness: the theorem evaluated at which = 4, base = (0, 0),
row = 255, col = 511 -/
theorem init_matrix_assert_safe_witness :
    (4 ≤ 4 ∧ 255 < ROWS ∧ 511 < COLS ∧ 0 + 255 ≤ 65534 ∧ 0 + 511 ≤ 65534) ∧
      init_assert_ok 4 ⟨0, 0⟩ 255 511 := by
  refine ⟨by decide, ?_⟩
  exact (init_matrix_assert_safe 4 ⟨0, 0⟩ 255 511 (by decide) (by decide)
    (by decide) (by decide) (by decide)).1

/-- C2 (confirmed): at every step the writer actually reaches (step < nsteps
<= UINT_MAX, so step + 1 < 2^32 and the unsigned-int sum 1 + step does not
wrap), write_extensible_dset grows the extent to exactly the epoch-step
region and writes exactly the newly extended chunks: in one-dimensional
mode the extent becomes 256*(step+1) by 512 and the single chunk at
(256*step, 0) is written; in two-dimensional mode the extent becomes
256*(step+1) by 512*(step+1) and the chunk bases written are exactly
the set of (256*i, 512*step) for i <= step together with (256*step, 512*j)
for j < step -/
theorem write_extensible_dset_region (step : Nat) (h : step + 1 < 2 ^ 32) :
    ((write_extensible_dset false step).1 = (256 * (step + 1), 512) ∧
      (write_extensible_dset false step).2 = [⟨256 * step, 0⟩]) ∧
    ((write_extensible_dset true step).1 = (256 * (step + 1), 512 * (step + 1)) ∧
      ∀ b : base_t, b ∈ (write_extensible_dset true step).2 ↔
        ((∃ i, i ≤ step ∧ b = ⟨256 * i, 512 * step⟩) ∨
         (∃ j, j < step ∧ b = ⟨256 * step, 512 * j⟩))) := by
  have hmod : (1 + step) % 2 ^ 32 = step + 1 := by omega
  refine ⟨⟨?_, rfl⟩, ⟨?_, ?_⟩⟩
  · show (256 * ((1 + step) % 2 ^ 32), 512) = (256 * (step + 1), 512)
    rw [hmod]
  · show (256 * ((1 + step) % 2 ^ 32), 512 * ((1 + step) % 2 ^ 32)) =
      (256 * (step + 1), 512 * (step + 1))
    rw [hmod]
  · intro b
    show b ∈ (List.range (step + 1)).map (fun i => (⟨256 * i, 512 * step⟩ : base_t)) ++
        (List.range step).map (fun j => (⟨256 * step, 512 * j⟩ : base_t)) ↔ _
    simp only [List.mem_append, List.mem_map, List.mem_range, Nat.lt_succ_iff]
    constructor
    · rintro (⟨i, hi, rfl⟩ | ⟨j, hj, rfl⟩)
      · exact Or.inl ⟨i, hi, rfl⟩
      · exact Or.inr ⟨j, hj, rfl⟩
    · rintro (⟨i, hi, rfl⟩ | ⟨j, hj, rfl⟩)
      · exact Or.inl ⟨i, hi, rfl⟩
      · exact Or.inr ⟨j, hj, rfl⟩

/-- C2 witness: the theorem evaluated at step = 1: the one-dee extent is
(512, 512) with the single chunk (256, 0), and in two-dee mode the chunk
(0, 512) is among those written -/
theorem write_extensible_dset_region_witness :
    (1 + 1 < 2 ^ 32) ∧
      (write_extensible_dset false 1).1 = (512, 512) ∧
      (⟨0, 512⟩ : base_t) ∈ (write_extensible_dset true 1).2 := by
  have h := write_extensible_dset_region 1 (by decide)
  exact ⟨by decide, h.1.1, (h.2.2 ⟨0, 512⟩).mpr (Or.inl ⟨0, by omega, rfl⟩)⟩

/-- writer configuration: the fields of state_t that the command-line
options touch, plus the global verbosity flag from the test support
library. The handle and statistics fields of state_t play no part in the
claims and are omitted. -/
structure WState where
  use_vfd_swmr : Bool
  wait_for_signal : Bool
  constantrate : Bool
  two_dee : Bool
  nsteps : Nat
  tv_sec : Nat
  tv_nsec : Nat
  verbosity : Nat
deriving Repr, DecidableEq

/-- ALL_HID_INITIALIZER: the state before option processing. The initial
value of the external verbosity global is not in the excerpted sources; the
claims do not depend on it and it is taken as 0 here. -/
def initState : WState :=
  { use_vfd_swmr := true
  , wait_for_signal := true
  , constantrate := false
  , two_dee := false
  , nsteps := 100
  , tv_sec := 0
  , tv_nsec := 1000000000 / 30
  , verbosity := 0 }

/-- value of a hexadecimal digit character, as used by strtoul -/
def hexVal (c : Char) : Option Nat :=
  if '0' ≤ c ∧ c ≤ '9' then some (c.toNat - 48)
  else if 'a' ≤ c ∧ c ≤ 'f' then some (c.toNat - 87)
  else if 'A' ≤ c ∧ c ≤ 'F' then some (c.toNat - 55)
  else none

/-- C isspace on the default locale -/
def cIsSpace (c : Char) : Bool :=
  c = ' ' ∨ c = '\t' ∨ c = '\n' ∨ c = '\x0b' ∨ c = '\x0c' ∨ c = '\r'

/-- whether a list of characters starts with a hexadecimal digit -/
def hexHead : List Char → Bool
  | [] => false
  | d :: _ => (hexVal d).isSome

/-- digit-consuming loop of strtoul: accumulate digits below the base,
clamping to ULONG_MAX and raising the range flag on overflow, and return
the value, the flag and the unconsumed suffix -/
def digitsRun (base : Nat) : Nat → Bool → List Char → Nat × Bool × List Char
  | acc, er, [] => (acc, er, [])
  | acc, er, c :: cs =>
    match hexVal c with
    | some d =>
      if d < base then
        if acc * base + d > ULONG_MAX then digitsRun base ULONG_MAX true cs
        else digitsRun base (acc * base + d) er cs
      else (acc, er, c :: cs)
    | none => (acc, er, c :: cs)

/-- final value of strtoul: ULONG_MAX on range error, otherwise the
accumulated magnitude, negated modulo 2^64 when a minus sign was seen -/
def strtoulFinish (neg er : Bool) (v : Nat) : Nat :=
  if er then ULONG_MAX else if neg then (2 ^ 64 - v) % 2 ^ 64 else v

/-- strtoul(nptr, endptr, 0): returns the converted value, whether ERANGE
was raised, and some rest (the suffix endptr points at) when a conversion
was performed, or none when no conversion was performed (endptr = nptr).
Base 0 means: after optional whitespace and sign, a 0x/0X prefix followed
by a hex digit selects base 16, a leading 0 selects base 8 (the 0 itself
counts as a converted digit), anything else is parsed in base 10. -/
def strtoul0 (s : List Char) : Nat × Bool × Option (List Char) :=
  let t := s.dropWhile cIsSpace
  let neg : Bool := match t with | '-' :: _ => true | _ => false
  let t2 : List Char := match t with
    | '-' :: r => r
    | '+' :: r => r
    | _ => t
  match t2 with
  | '0' :: c :: r =>
    if (c = 'x' ∨ c = 'X') ∧ hexHead r then
      match digitsRun 16 0 false r with
      | (v, er, rest) => (strtoulFinish neg er v, er, some rest)
    else
      match digitsRun 8 0 false (c :: r) with
      | (v, er, rest) => (strtoulFinish neg er v, er, some rest)
  | ['0'] => (0, false, some [])
  | _ =>
    match digitsRun 10 0 false t2 with
    | (v, er, rest) =>
      if rest.length = t2.length then (0, false, none)
      else (strtoulFinish neg er v, er, some rest)

/-- whether the character at endptr after a strtoul call on nptr is not
the terminating NUL: when a conversion happened, endptr points at the
unconsumed suffix, otherwise endptr = nptr points at the whole string -/
def endNonNul (nptr : List Char) : Option (List Char) → Bool
  | some rest => !rest.isEmpty
  | none => !nptr.isEmpty

/-- outcome of one iteration of the getopt switch in state_init -/
inductive OptResult where
  /-- the option was handled and the loop continues with the new state -/
  | ok (s : WState)
  /-- errx or err was called: exit(EXIT_FAILURE) with a diagnostic -/
  | exitFail
  /-- usage() was called: print usage and exit(EXIT_FAILURE) -/
  | usageExit
deriving Repr, DecidableEq

/-- body of the getopt switch in state_init, applied to one option
character ch (as returned by getopt for the option string "SWcd:n:qu:")
and its argument optarg. getopt yields the character itself for a
recognized option and a question mark for anything else, which falls to
the default arm of the switch and calls usage(). -/
def do_option (s : WState) (ch : Char) (optarg : String) : OptResult :=
  if ch = 'S' then .ok { s with use_vfd_swmr := false }
  else if ch = 'W' then .ok { s with wait_for_signal := false }
  else if ch = 'c' then .ok { s with constantrate := true }
  else if ch = 'd' then
    if optarg = "1" ∨ optarg = "one" then .ok { s with two_dee := false }
    else if optarg = "2" ∨ optarg = "two" ∨ optarg = "both" then
      .ok { s with two_dee := true }
    else .exitFail
  else if ch = 'n' then
    match strtoul0 optarg.toList with
    | (v, er, conv) =>
      if conv ≠ some [] then .exitFail
      else if er then .exitFail
      else if v > UINT_MAX then .exitFail
      else .ok { s with nsteps := v }
  else if ch = 'q' then .ok { s with verbosity := 1 }
  else if ch = 'u' then
    match strtoul0 optarg.toList with
    | (millis, er, conv) =>
      if millis = ULONG_MAX ∧ er then .exitFail
      else if endNonNul optarg.toList conv then .exitFail
      else .ok { s with
        tv_sec := millis / 1000,
        tv_nsec := millis * 1000000 % 2 ^ 64 % 1000000000 }
  else .usageExit

/-- events of the writer's main routine that the temporal claims speak
about -/
inductive Ev where
  /-- create_extensible_dset(&s, which) -/
  | create (which : Nat)
  /-- write_extensible_dset(&s, which, step, mat) -/
  | write (step which : Nat)
  /-- nanosleep(&s.update_interval, NULL) -/
  | sleep
  /-- await_signal(s.file) -/
  | awaitSig
  /-- H5Fclose(s.file) -/
  | closeFile
deriving Repr, DecidableEq

/-- the doubly nested write loop of main: for each step below nsteps and
each dataset index below NSETS, one write followed by one nanosleep -/
def writes_part (nsteps : Nat) : List Ev :=
  (List.range nsteps).flatMap (fun step =>
    (List.range NSETS).flatMap (fun which => [Ev.write step which, Ev.sleep]))

/-- event trace of main after state_init: create the NSETS datasets, run
the write loop, optionally block in await_signal (exactly when VFD SWMR is
in use and wait_for_signal is set), close the file -/
def main_trace (s : WState) : List Ev :=
  (List.range NSETS).map Ev.create ++ writes_part s.nsteps ++
    (if s.use_vfd_swmr && s.wait_for_signal then [Ev.awaitSig] else []) ++
    [Ev.closeFile]

/-- fields of a created extensible dataset as fixed by
create_extensible_dset: dataspace of original_dims = {ROWS, COLS} with
maxdims one_dee_max_dims = {H5S_UNLIMITED, COLS} or two_dee_max_dims =
{H5S_UNLIMITED, H5S_UNLIMITED}, chunked layout with chunk_dims =
original_dims, and name "/dataset-%d" -/
structure DsetSpec where
  name : String
  dims : Nat × Nat
  maxdims : Nat × Nat
  chunk : Nat × Nat
deriving Repr, DecidableEq

/-- create_extensible_dset(&s, which), modelled by the dataset it creates -/
def create_extensible_dset (two_dee : Bool) (which : Nat) : DsetSpec :=
  { name := "/dataset-" ++ toString which
  , dims := (ROWS, COLS)
  , maxdims := if two_dee then (H5S_UNLIMITED, H5S_UNLIMITED)
               else (H5S_UNLIMITED, COLS)
  , chunk := (ROWS, COLS) }

theorem mem_writes_part (n st w : Nat) :
    Ev.write st w ∈ writes_part n ↔ st < n ∧ w < NSETS := by
  simp only [writes_part, List.mem_flatMap, List.mem_range, List.mem_cons,
    List.not_mem_nil, or_false]
  constructor
  · rintro ⟨a, ha, b, hb, h | h⟩
    · cases h; exact ⟨ha, hb⟩
    · exact Ev.noConfusion h
  · rintro ⟨ha, hb⟩
    exact ⟨st, ha, w, hb, Or.inl rfl⟩

theorem awaitSig_not_mem_writes (n : Nat) : Ev.awaitSig ∉ writes_part n := by
  simp [writes_part, List.mem_flatMap]

theorem closeFile_not_mem_writes (n : Nat) : Ev.closeFile ∉ writes_part n := by
  simp [writes_part, List.mem_flatMap]

theorem create_not_mem_writes (n w : Nat) : Ev.create w ∉ writes_part n := by
  simp [writes_part, List.mem_flatMap]

theorem flatMap_split {α β : Type} (f : α → List β) (l1 : List α) (x : α)
    (l2 : List α) :
    (l1 ++ x :: l2).flatMap f = l1.flatMap f ++ f x ++ l2.flatMap f := by
  simp [List.flatMap_append, List.flatMap_cons, List.append_assoc]

/-- every write of the loop is immediately followed by a nanosleep -/
theorem writes_part_split (n st w : Nat) (hst : st < n) (hw : w < NSETS) :
    ∃ l1 l2, writes_part n = l1 ++ Ev.write st w :: Ev.sleep :: l2 := by
  obtain ⟨a1, a2, ha⟩ := List.append_of_mem (List.mem_range.mpr hst)
  obtain ⟨b1, b2, hb⟩ := List.append_of_mem (List.mem_range.mpr hw)
  unfold writes_part
  rw [ha, hb, flatMap_split, flatMap_split]
  refine ⟨a1.flatMap (fun step =>
      (b1 ++ w :: b2).flatMap (fun which => [Ev.write step which, Ev.sleep])) ++
      b1.flatMap (fun which => [Ev.write st which, Ev.sleep]),
    b2.flatMap (fun which => [Ev.write st which, Ev.sleep]) ++
      a2.flatMap (fun step =>
        (b1 ++ w :: b2).flatMap (fun which => [Ev.write step which, Ev.sleep])), ?_⟩
  simp [List.append_assoc]

/-- C4 (confirmed): in every run of main the await_signal call happens
after the whole write loop and immediately before the file close, and it
happens if and only if VFD SWMR is in use (no -S) and wait-for-signal is
enabled (no -W); otherwise the writer proceeds directly to the close -/
theorem main_close_handshake (s : WState) :
    (Ev.awaitSig ∈ main_trace s ↔
      (s.use_vfd_swmr = true ∧ s.wait_for_signal = true)) ∧
    ∃ pre : List Ev,
      Ev.awaitSig ∉ pre ∧ Ev.closeFile ∉ pre ∧
      (∀ st w, (Ev.write st w ∈ pre ↔ st < s.nsteps ∧ w < NSETS)) ∧
      (if s.use_vfd_swmr && s.wait_for_signal
        then main_trace s = pre ++ [Ev.awaitSig, Ev.closeFile]
        else main_trace s = pre ++ [Ev.closeFile]) := by
  constructor
  · cases hb : s.use_vfd_swmr && s.wait_for_signal with
    | true =>
      rw [Bool.and_eq_true] at hb
      simp [main_trace, hb.1, hb.2, awaitSig_not_mem_writes]
    | false =>
      rw [Bool.and_eq_false_iff] at hb
      rcases hb with hb | hb <;>
        simp [main_trace, hb, awaitSig_not_mem_writes]
  · refine ⟨(List.range NSETS).map Ev.create ++ writes_part s.nsteps, ?_, ?_, ?_, ?_⟩
    · simp [List.mem_append, awaitSig_not_mem_writes]
    · simp [List.mem_append, closeFile_not_mem_writes]
    · intro st w
      simp [List.mem_append, mem_writes_part]
    · cases hb : s.use_vfd_swmr && s.wait_for_signal <;>
        simp [main_trace, hb, List.append_assoc]

/-- C4 witness: with the default configuration (SWMR on, wait on) the
await_signal event does occur in the trace -/
theorem main_close_handshake_witness : Ev.awaitSig ∈ main_trace initState := by
  exact (main_close_handshake initState).1.mpr ⟨rfl, rfl⟩

/-- C7 (confirmed): the writer creates exactly NSETS = 5 datasets, named
"/dataset-0" through "/dataset-4", each with initial dimensions 256 by 512,
chunk dimensions also 256 by 512, maximum dimensions (unlimited, 512) in
one-dimensional mode and (unlimited, unlimited) in two-dimensional mode,
and in the main trace all five creations precede every other event -/
theorem create_datasets_spec (td : Bool) (s : WState) :
    ((List.range NSETS).map (fun w => (create_extensible_dset td w).name) =
      ["/dataset-0", "/dataset-1", "/dataset-2", "/dataset-3", "/dataset-4"]) ∧
    (∀ w, (create_extensible_dset td w).dims = (256, 512) ∧
      (create_extensible_dset td w).chunk = (256, 512) ∧
      (create_extensible_dset false w).maxdims = (H5S_UNLIMITED, 512) ∧
      (create_extensible_dset true w).maxdims = (H5S_UNLIMITED, H5S_UNLIMITED)) ∧
    ∃ rest : List Ev,
      main_trace s = (List.range NSETS).map Ev.create ++ rest ∧
      ∀ w, Ev.create w ∉ rest := by
  refine ⟨by rfl, fun w => ⟨rfl, rfl, rfl, rfl⟩, ?_⟩
  refine ⟨writes_part s.nsteps ++
    (if s.use_vfd_swmr && s.wait_for_signal then [Ev.awaitSig] else []) ++
    [Ev.closeFile], by simp [main_trace, List.append_assoc], ?_⟩
  intro w
  cases hb : s.use_vfd_swmr && s.wait_for_signal <;>
    simp [hb, List.mem_append, create_not_mem_writes]

/-- C7 witness: the name list evaluated through the theorem -/
theorem create_datasets_spec_witness :
    (List.range NSETS).map (fun w => (create_extensible_dset false w).name) =
      ["/dataset-0", "/dataset-1", "/dataset-2", "/dataset-3", "/dataset-4"] :=
  (create_datasets_spec false initState).1

/-- C5 (corrected): the getopt switch recognizes one more option than the
claim's list: -q, which sets the verbosity global to 1 and is accepted
rather than hitting the usage default -/
theorem q_option_recognized :
    do_option initState 'q' "" ≠ OptResult.usageExit ∧
    do_option initState 'q' "" = OptResult.ok { initState with verbosity := 1 } := by
  decide

/-- C5 (amended): the writer's option set is exactly -S, -W, -c, -d, -n,
-q, -u: -S disables SWMR, -W disables the wait for the external signal,
-c selects continuous (constant-rate) iteration, -q sets verbosity to 1,
-d accepts exactly 1/one (one-dimensional) and 2/two/both (two-dimensional)
and exits with failure on anything else, -n parses its argument with
strtoul and exits with failure on a non-numeric or trailing-garbage
argument, on range overflow, and on values above UINT_MAX, -u sets the
update interval from a fully parsed millisecond count (tv_sec =
millis / 1000 and tv_nsec = (millis * 10^6 mod 2^64) mod 10^9) and exits
with failure on trailing garbage or on a range overflow, and every other
option character exits through usage() -/
theorem do_option_spec (s : WState) (arg : String) :
    (do_option s 'S' arg = .ok { s with use_vfd_swmr := false }) ∧
    (do_option s 'W' arg = .ok { s with wait_for_signal := false }) ∧
    (do_option s 'c' arg = .ok { s with constantrate := true }) ∧
    (do_option s 'q' arg = .ok { s with verbosity := 1 }) ∧
    ((arg = "1" ∨ arg = "one") →
      do_option s 'd' arg = .ok { s with two_dee := false }) ∧
    ((arg = "2" ∨ arg = "two" ∨ arg = "both") →
      do_option s 'd' arg = .ok { s with two_dee := true }) ∧
    (arg ∉ ["1", "one", "2", "two", "both"] → do_option s 'd' arg = .exitFail) ∧
    (∀ v, strtoul0 arg.toList = (v, false, some []) → v ≤ UINT_MAX →
      do_option s 'n' arg = .ok { s with nsteps := v }) ∧
    (∀ v er conv, strtoul0 arg.toList = (v, er, conv) → conv ≠ some [] →
      do_option s 'n' arg = .exitFail) ∧
    (∀ v, strtoul0 arg.toList = (v, true, some []) →
      do_option s 'n' arg = .exitFail) ∧
    (∀ v, strtoul0 arg.toList = (v, false, some []) → v > UINT_MAX →
      do_option s 'n' arg = .exitFail) ∧
    (∀ v, strtoul0 arg.toList = (v, false, some []) →
      do_option s 'u' arg = .ok { s with
        tv_sec := v / 1000,
        tv_nsec := v * 1000000 % 2 ^ 64 % 1000000000 }) ∧
    (∀ v rest, strtoul0 arg.toList = (v, false, some rest) → rest ≠ [] →
      do_option s 'u' arg = .exitFail) ∧
    (∀ conv, strtoul0 arg.toList = (ULONG_MAX, true, conv) →
      do_option s 'u' arg = .exitFail) ∧
    (∀ ch, ch ∉ ['S', 'W', 'c', 'd', 'n', 'q', 'u'] →
      do_option s ch arg = .usageExit) := by
  refine ⟨rfl, rfl, rfl, rfl, ?_, ?_, ?_, ?_, ?_, ?_, ?_, ?_, ?_, ?_, ?_⟩
  · rintro (rfl | rfl) <;> rfl
  · rintro (rfl | rfl | rfl) <;> rfl
  · intro h
    simp only [List.mem_cons, List.not_mem_nil, or_false, not_or] at h
    obtain ⟨n1, n2, n3, n4, n5⟩ := h
    show (if arg = "1" ∨ arg = "one" then OptResult.ok { s with two_dee := false }
      else if arg = "2" ∨ arg = "two" ∨ arg = "both" then
        OptResult.ok { s with two_dee := true }
      else OptResult.exitFail) = OptResult.exitFail
    rw [if_neg (by tauto), if_neg (by tauto)]
  · intro v hp hv
    have h0 : do_option s 'n' arg =
        (match strtoul0 arg.toList with
         | (v, er, conv) =>
           if conv ≠ some [] then OptResult.exitFail
           else if er then OptResult.exitFail
           else if v > UINT_MAX then OptResult.exitFail
           else OptResult.ok { s with nsteps := v }) := rfl
    rw [h0, hp]
    simp [Nat.not_lt_of_le hv]
  · intro v er conv hp hc
    have h0 : do_option s 'n' arg =
        (match strtoul0 arg.toList with
         | (v, er, conv) =>
           if conv ≠ some [] then OptResult.exitFail
           else if er then OptResult.exitFail
           else if v > UINT_MAX then OptResult.exitFail
           else OptResult.ok { s with nsteps := v }) := rfl
    rw [h0, hp]
    simp [hc]
  · intro v hp
    have h0 : do_option s 'n' arg =
        (match strtoul0 arg.toList with
         | (v, er, conv) =>
           if conv ≠ some [] then OptResult.exitFail
           else if er then OptResult.exitFail
           else if v > UINT_MAX then OptResult.exitFail
           else OptResult.ok { s with nsteps := v }) := rfl
    rw [h0, hp]
    simp
  · intro v hp hv
    have h0 : do_option s 'n' arg =
        (match strtoul0 arg.toList with
         | (v, er, conv) =>
           if conv ≠ some [] then OptResult.exitFail
           else if er then OptResult.exitFail
           else if v > UINT_MAX then OptResult.exitFail
           else OptResult.ok { s with nsteps := v }) := rfl
    rw [h0, hp]
    simp [hv]
  · intro v hp
    have h0 : do_option s 'u' arg =
        (match strtoul0 arg.toList with
         | (millis, er, conv) =>
           if millis = ULONG_MAX ∧ er then OptResult.exitFail
           else if endNonNul arg.toList conv then OptResult.exitFail
           else OptResult.ok { s with
                tv_sec := millis / 1000,
                tv_nsec := millis * 1000000 % 2 ^ 64 % 1000000000 }) := rfl
    rw [h0, hp]
    simp [endNonNul]
  · intro v rest hp hrest
    have h0 : do_option s 'u' arg =
        (match strtoul0 arg.toList with
         | (millis, er, conv) =>
           if millis = ULONG_MAX ∧ er then OptResult.exitFail
           else if endNonNul arg.toList conv then OptResult.exitFail
           else OptResult.ok { s with
                tv_sec := millis / 1000,
                tv_nsec := millis * 1000000 % 2 ^ 64 % 1000000000 }) := rfl
    have hne : rest.isEmpty = false := by
      cases rest with
      | nil => exact absurd rfl hrest
      | cons a t => rfl
    rw [h0, hp]
    simp [endNonNul, hne]
  · intro conv hp
    have h0 : do_option s 'u' arg =
        (match strtoul0 arg.toList with
         | (millis, er, conv) =>
           if millis = ULONG_MAX ∧ er then OptResult.exitFail
           else if endNonNul arg.toList conv then OptResult.exitFail
           else OptResult.ok { s with
                tv_sec := millis / 1000,
                tv_nsec := millis * 1000000 % 2 ^ 64 % 1000000000 }) := rfl
    rw [h0, hp]
    simp
  · intro ch hch
    simp only [List.mem_cons, List.not_mem_nil, or_false, not_or] at hch
    obtain ⟨h1, h2, h3, h4, h5, h6, h7⟩ := hch
    simp only [do_option]
    rw [if_neg h1, if_neg h2, if_neg h3, if_neg h4, if_neg h5, if_neg h6, if_neg h7]

/-- C5 witness: the -d two-dee branch of the amended theorem at "2" and
the -u branch at "250", which sets a 250-millisecond interval -/
theorem do_option_spec_witness :
    do_option initState 'd' "2" = OptResult.ok { initState with two_dee := true } ∧
    do_option initState 'u' "250" = OptResult.ok { initState with
      tv_sec := 250 / 1000,
      tv_nsec := 250 * 1000000 % 2 ^ 64 % 1000000000 } :=
  ⟨(do_option_spec initState "2").2.2.2.2.2.1 (Or.inl rfl),
   (do_option_spec initState "250").2.2.2.2.2.2.2.2.2.2.2.1 250 (by decide)⟩

/-- C6 (corrected): a millisecond count accepted by -u whose nanosecond
total overflows 64-bit arithmetic is not represented exactly: the argument
18446744073710 is accepted (strtoul succeeds with no range error), yet the
stored interval tv_sec = 18446744073, tv_nsec = 448384 totals
18446744073000448384 ns, not 18446744073710000000 ns -/
theorem update_interval_truncates :
    do_option initState 'u' "18446744073710" =
      OptResult.ok { initState with tv_sec := 18446744073, tv_nsec := 448384 } ∧
    ¬ (18446744073 * 1000000000 + 448384 = 18446744073710 * 1000000) := by
  constructor
  · decide
  · decide

/-- C6 (amended): for every millisecond count accepted by -u such that
millis * 10^6 does not overflow 64-bit arithmetic, the configured interval
equals exactly millis milliseconds: tv_sec = millis / 1000, tv_nsec below
10^9, and tv_sec * 10^9 + tv_nsec = millis * 10^6; and this interval is
slept immediately after every dataset update of the main loop -/
theorem update_interval_exact (s : WState) (arg : String) (millis : Nat)
    (hp : strtoul0 arg.toList = (millis, false, some []))
    (hm : millis * 1000000 < 2 ^ 64) :
    (do_option s 'u' arg = .ok { s with
        tv_sec := millis / 1000,
        tv_nsec := millis * 1000000 % 2 ^ 64 % 1000000000 } ∧
      millis / 1000 * 1000000000 + millis * 1000000 % 2 ^ 64 % 1000000000 =
        millis * 1000000 ∧
      millis * 1000000 % 2 ^ 64 % 1000000000 < 1000000000) ∧
    (∀ st w, st < s.nsteps → w < NSETS →
      ∃ l1 l2, main_trace s = l1 ++ Ev.write st w :: Ev.sleep :: l2) := by
  have hmod : millis * 1000000 % 2 ^ 64 = millis * 1000000 := Nat.mod_eq_of_lt hm
  refine ⟨⟨?_, by rw [hmod]; omega, by rw [hmod]; omega⟩, ?_⟩
  · have h0 : do_option s 'u' arg =
        (match strtoul0 arg.toList with
         | (millis, er, conv) =>
           if millis = ULONG_MAX ∧ er then OptResult.exitFail
           else if endNonNul arg.toList conv then OptResult.exitFail
           else OptResult.ok { s with
                tv_sec := millis / 1000,
                tv_nsec := millis * 1000000 % 2 ^ 64 % 1000000000 }) := rfl
    rw [h0, hp]
    simp [endNonNul]
  · intro st w hst hw
    obtain ⟨l1, l2, hsplit⟩ := writes_part_split s.nsteps st w hst hw
    refine ⟨(List.range NSETS).map Ev.create ++ l1,
      l2 ++ ((if s.use_vfd_swmr && s.wait_for_signal then [Ev.awaitSig] else []) ++
        [Ev.closeFile]), ?_⟩
    rw [main_trace, hsplit]
    simp [List.append_assoc]

/-- C6 witness: the amended theorem evaluated at millis = 33, arg "33":
the interval is 0 s, 33000000 ns, exactly 33 ms -/
theorem update_interval_exact_witness :
    strtoul0 "33".toList = (33, false, some []) ∧
    do_option initState 'u' "33" =
      OptResult.ok { initState with
        tv_sec := 33 / 1000,
        tv_nsec := 33 * 1000000 % 2 ^ 64 % 1000000000 } ∧
    33 / 1000 * 1000000000 + 33 * 1000000 % 2 ^ 64 % 1000000000 = 33 * 1000000 := by
  have h := update_interval_exact initState "33" 33 (by decide) (by decide)
  exact ⟨by decide, h.1.1, h.1.2.1⟩

end Bigset

namespace H5G

/-- the identifier classes that matter to the H5G entry points: H5I_FILE,
H5I_GROUP and everything else (datasets, dataspaces, property lists,
invalid handles, ...) -/
inductive IdKind where
  | file
  | group
  | other
deriving Repr, DecidableEq

/-- H5G_info_t: the group metadata record filled in by H5Gget_info -/
structure GInfo where
  storage_type : Nat
  nlinks : Nat
  max_corder : Int
  mounted : Bool
deriving Repr, DecidableEq

/-- identifier environment a call executes in: the class of every handle,
the group object a group handle refers to, the root-group object of a
file handle, the group metadata of every object (the result of
H5G__obj_info, which lives outside src/ and is taken as an oracle of the
environment), and the number of group handles registered so far -/
structure GEnv where
  kind : Nat → IdKind
  groupObj : Nat → Nat
  rootOf : Nat → Nat
  objInfo : Nat → GInfo
  nGroupsOpen : Nat

/-- Modelled from the spec and the module header of H5G.c: H5G_loc itself
is in H5Gloc.c, outside src/; per the header table in H5G.c a location ID
is a file ID or a group ID, and a file ID stands for the root group of
that file -/
def H5G_loc (env : GEnv) (i : Nat) : Option Nat :=
  match env.kind i with
  | IdKind.file => some (env.rootOf i)
  | IdKind.group => some (env.groupObj i)
  | IdKind.other => none

/-- H5Gcreate2(loc_id, name, lcpl_id, gcpl_id, gapl_id): checks H5G_loc,
then rejects a null or empty name; the property-list checks and the
creation path (H5G__create_named and H5I_register, outside src/) are
modelled from the spec as registering one fresh nonnegative group handle.
The C null pointer is modelled as none, a present string as some. Returns
the C return value (negative on failure) together with the environment
after the call. -/
def H5Gcreate2 (env : GEnv) (loc_id : Nat) (name : Option String)
    (lcpl_id gcpl_id gapl_id : Nat) : Int × GEnv :=
  match H5G_loc env loc_id with
  | none => (-1, env)
  | some _ =>
    match name with
    | none => (-1, env)
    | some str =>
      if str = "" then (-1, env)
      else (Int.ofNat (env.nGroupsOpen + 1),
        { env with nGroupsOpen := env.nGroupsOpen + 1 })

/-- H5Gopen2(loc_id, name, gapl_id): same argument checks as H5Gcreate2;
the open path (H5G__open_name and H5I_register, outside src/) is modelled
from the spec as registering one group handle -/
def H5Gopen2 (env : GEnv) (loc_id : Nat) (name : Option String)
    (gapl_id : Nat) : Int × GEnv :=
  match H5G_loc env loc_id with
  | none => (-1, env)
  | some _ =>
    match name with
    | none => (-1, env)
    | some str =>
      if str = "" then (-1, env)
      else (Int.ofNat (env.nGroupsOpen + 1),
        { env with nGroupsOpen := env.nGroupsOpen + 1 })

/-- H5Gget_info(grp_id, grp_info): rejects identifiers that are neither
groups nor files, then a null info pointer, then resolves the location
with H5G_loc and fills the info record through H5G__obj_info. The second
component models the memory the info pointer refers to: none for a null
pointer, otherwise its (possibly updated) contents. -/
def H5Gget_info (env : GEnv) (grp_id : Nat) (info : Option GInfo) :
    Int × Option GInfo :=
  if env.kind grp_id = IdKind.group ∨ env.kind grp_id = IdKind.file then
    match info with
    | none => (-1, none)
    | some prev =>
      match H5G_loc env grp_id with
      | none => (-1, some prev)
      | some obj => (0, some (env.objInfo obj))
  else (-1, info)

/-- the index handle and tick the writer has currently published -/
structure Published where
  tick : Nat
  index : Nat
deriving Repr, DecidableEq

/-- a reader's view: its last-observed tick and adopted index handle -/
structure ReaderView where
  lastTick : Nat
  indexHandle : Nat
deriving Repr, DecidableEq

/-- Modelled from the spec: the body of H5Grefresh delegates to
H5O_refresh_metadata, which is outside src/. Section 4.5 of the spec says
a refresh reads the currently published index handle and, when its tick is
newer than the reader's last-observed tick, adopts it as the reader's
current index and updates the last-observed tick; otherwise nothing
changes. -/
def refresh_view (pub : Published) (r : ReaderView) : ReaderView :=
  if r.lastTick < pub.tick then
    { lastTick := pub.tick, indexHandle := pub.index }
  else r

/-- H5Grefresh(group_id): fails on an identifier that is not a group,
otherwise refreshes the reader's view of the group against the published
state -/
def H5Grefresh (env : GEnv) (pub : Published) (group_id : Nat)
    (r : ReaderView) : Int × ReaderView :=
  if env.kind group_id = IdKind.group then (0, refresh_view pub r)
  else (-1, r)

/-- concrete identifier environment for the witnesses: handle 0 is a file
whose root group object is 7, handle 1 is a group referring to object 3,
everything else is invalid -/
def envEx : GEnv :=
  { kind := fun i => if i = 0 then IdKind.file
      else if i = 1 then IdKind.group else IdKind.other
    groupObj := fun _ => 3
    rootOf := fun _ => 7
    objInfo := fun obj => ⟨0, obj, 0, false⟩
    nGroupsOpen := 0 }

/-- C3 (confirmed): calling H5Grefresh twice in succession on a valid
group identifier with no intervening writer activity (the published state
unchanged) returns success both times and leaves the reader's observed
view exactly as after the first call -/
theorem H5Grefresh_idempotent (env : GEnv) (pub : Published) (gid : Nat)
    (r : ReaderView) (hg : env.kind gid = IdKind.group) :
    (H5Grefresh env pub gid r).1 = 0 ∧
    H5Grefresh env pub gid (H5Grefresh env pub gid r).2 =
      H5Grefresh env pub gid r := by
  have hrr : refresh_view pub (refresh_view pub r) = refresh_view pub r := by
    unfold refresh_view
    by_cases h : r.lastTick < pub.tick
    · rw [if_pos h]
      rw [if_neg (by simp)]
    · rw [if_neg h, if_neg h]
  have h1 : H5Grefresh env pub gid r = (0, refresh_view pub r) := by
    unfold H5Grefresh
    rw [if_pos hg]
  rw [h1]
  refine ⟨rfl, ?_⟩
  show H5Grefresh env pub gid (refresh_view pub r) = (0, refresh_view pub r)
  unfold H5Grefresh
  rw [if_pos hg, hrr]

/-- C3 witness: the theorem at the concrete environment envEx, group
handle 1, published tick 3 and a reader still at tick 0 -/
theorem H5Grefresh_idempotent_witness :
    envEx.kind 1 = IdKind.group ∧
    H5Grefresh envEx ⟨3, 5⟩ 1 (H5Grefresh envEx ⟨3, 5⟩ 1 ⟨0, 0⟩).2 =
      H5Grefresh envEx ⟨3, 5⟩ 1 ⟨0, 0⟩ :=
  ⟨by decide, (H5Grefresh_idempotent envEx ⟨3, 5⟩ 1 ⟨0, 0⟩ (by decide)).2⟩

/-- C8 (confirmed): for every location identifier and any property lists,
H5Gcreate2 and H5Gopen2 fail with a negative return value when the name
is a null pointer or an empty string, and the identifier environment is
unchanged (no group is created or opened) -/
theorem create_open_reject_empty_name (env : GEnv) (loc_id : Nat)
    (name : Option String) (lcpl gcpl gapl : Nat)
    (hloc : (H5G_loc env loc_id).isSome = true)
    (hname : name = none ∨ name = some "") :
    ((H5Gcreate2 env loc_id name lcpl gcpl gapl).1 < 0 ∧
      (H5Gcreate2 env loc_id name lcpl gcpl gapl).2 = env) ∧
    ((H5Gopen2 env loc_id name gapl).1 < 0 ∧
      (H5Gopen2 env loc_id name gapl).2 = env) := by
  obtain ⟨obj, hobj⟩ := Option.isSome_iff_exists.mp hloc
  unfold H5Gcreate2 H5Gopen2
  rw [hobj]
  rcases hname with rfl | rfl
  · exact ⟨⟨by norm_num, rfl⟩, ⟨by norm_num, rfl⟩⟩
  · simp

/-- C8 witness: the theorem at envEx with the file handle 0 and the empty
name -/
theorem create_open_reject_empty_name_witness :
    (H5G_loc envEx 0).isSome = true ∧
    (H5Gcreate2 envEx 0 (some "") 0 0 0).1 < 0 ∧
    (H5Gopen2 envEx 0 (some "") 0).1 < 0 := by
  have h := create_open_reject_empty_name envEx 0 (some "") 0 0 0
    (by decide) (Or.inr rfl)
  exact ⟨by decide, h.1.1, h.2.1⟩

/-- C10 (confirmed): H5Gget_info accepts a group identifier and a file
identifier (the file standing for its root group) and fills the info
record from the resolved object; for an identifier of any other class, or
for a null info pointer, it returns a negative value and leaves the
output memory unchanged -/
theorem get_info_spec (env : GEnv) (gid : Nat) (gi : GInfo) :
    (env.kind gid = IdKind.file →
      H5Gget_info env gid (some gi) = (0, some (env.objInfo (env.rootOf gid)))) ∧
    (env.kind gid = IdKind.group →
      H5Gget_info env gid (some gi) = (0, some (env.objInfo (env.groupObj gid)))) ∧
    (¬ (env.kind gid = IdKind.group ∨ env.kind gid = IdKind.file) →
      H5Gget_info env gid (some gi) = (-1, some gi)) ∧
    ((H5Gget_info env gid none).1 < 0 ∧ (H5Gget_info env gid none).2 = none) := by
  refine ⟨?_, ?_, ?_, ?_⟩
  · intro hf
    unfold H5Gget_info H5G_loc
    rw [if_pos (Or.inr hf), hf]
  · intro hg
    unfold H5Gget_info H5G_loc
    rw [if_pos (Or.inl hg), hg]
  · intro hother
    unfold H5Gget_info
    rw [if_neg hother]
  · unfold H5Gget_info
    by_cases h : env.kind gid = IdKind.group ∨ env.kind gid = IdKind.file
    · rw [if_pos h]
      exact ⟨by norm_num, rfl⟩
    · rw [if_neg h]
      exact ⟨by norm_num, rfl⟩

/-- C10 witness: the theorem at envEx: the file handle 0 yields the info
of its root group object 7, and the invalid handle 2 fails -/
theorem get_info_spec_witness :
    H5Gget_info envEx 0 (some ⟨0, 0, 0, false⟩) =
      (0, some (envEx.objInfo (envEx.rootOf 0))) ∧
    H5Gget_info envEx 2 (some ⟨0, 0, 0, false⟩) = (-1, some ⟨0, 0, 0, false⟩) := by
  have h1 := get_info_spec envEx 0 ⟨0, 0, 0, false⟩
  have h2 := get_info_spec envEx 2 ⟨0, 0, 0, false⟩
  exact ⟨h1.1 (by decide), h2.2.2.1 (by decide)⟩

end H5G
